import Mathlib

/-!
Shallow embedding of the report aggregation and export engine of
`src/sc-frontend/src/pages/ReportGenerationPage.tsx`.

Host-environment conventions of the embedding:

* A JavaScript `Date` object is modelled by `JSDate` (its epoch value, and the
  calendar fields read by `getFullYear` / `getMonth` / `toLocaleDateString`).
  An *invalid* date (the result of `new Date(s)` on an unparseable string `s`)
  is modelled by `none : Option JSDate`.  JavaScript date parsing
  (`new Date(string)`) is a browser capability, not repository code, so the
  engine functions take the parse function as an explicit argument
  `parse : String → Option JSDate`.
* Relational comparison of `Date` objects goes through their epoch value; any
  comparison involving an invalid date (`NaN` epoch) is `false`.  This is
  captured by `jsGE` / `jsLE`.
* A JavaScript object used as a dictionary with non-index string keys keeps
  its keys in insertion order; it is modelled by an association list
  `List (String × β)` with `objGet` (property read), `setKey` (property
  write), and `List.map Prod.fst` / `List.map Prod.snd` for
  `Object.keys` / `Object.values`.
* `toLocaleDateString` is locale dependent; it is modelled by a representative
  `M/D/YYYY` rendering for valid dates and the string `"Invalid Date"` for an
  invalid date, which is what the browser produces.
* The chart color fields (`borderColor`, `backgroundColor`, including the
  `Math.random()` colors of the activity chart) are presentational host
  values and carry no report data; they are omitted from the model.
-/

/-- A valid JavaScript `Date`: epoch value plus the calendar fields the page
reads.  `month` is the `getMonth()` value, always in `0..11`. -/
structure JSDate where
  epoch : Int
  year : Int
  month : Fin 12
  day : Nat
deriving DecidableEq, Repr

/-- `d >= s` on JS dates, where `d` may be an invalid date (`none`): any
comparison with an invalid date is `false` (NaN semantics). -/
def jsGE (d : Option JSDate) (s : JSDate) : Bool :=
  match d with
  | none => false
  | some d => s.epoch ≤ d.epoch

/-- `d <= e` on JS dates, where `d` may be an invalid date (`none`). -/
def jsLE (d : Option JSDate) (e : JSDate) : Bool :=
  match d with
  | none => false
  | some d => d.epoch ≤ e.epoch

/-- The `User` record of the page (`id`, `name`, `role`, `created_at`,
`avatar`); `created_at` is the raw timestamp string. -/
structure User where
  id : Nat
  name : String
  role : String
  created_at : String
  avatar : String
deriving DecidableEq, Repr

/-- The `Announcement` record of the page.  `sender_name` is typed `string`
in the source but guarded by `|| "Unknown"` at every use, so the model keeps
it optional (`none` = field absent at runtime). -/
structure Announcement where
  id : Nat
  message : String
  sender_id : Nat
  sent_at : String
  sender_name : Option String
deriving DecidableEq, Repr

/-- `filterUsersByDateRange` (lines 105–111): when either bound of the date
window is null the data is returned unchanged; otherwise a record is kept
when `new Date(created_at) >= startDate && new Date(created_at) <= endDate`. -/
def filterUsersByDateRange (parse : String → Option JSDate)
    (startDate endDate : Option JSDate) (data : List User) : List User :=
  match startDate, endDate with
  | some startD, some endD =>
      data.filter fun user =>
        jsGE (parse user.created_at) startD && jsLE (parse user.created_at) endD
  | _, _ => data

/-- `filterAnnouncementsByDateRange` (lines 113–119). -/
def filterAnnouncementsByDateRange (parse : String → Option JSDate)
    (startDate endDate : Option JSDate) (data : List Announcement) : List Announcement :=
  match startDate, endDate with
  | some startD, some endD =>
      data.filter fun ann =>
        jsGE (parse ann.sent_at) startD && jsLE (parse ann.sent_at) endD
  | _, _ => data

/-- Property read `m[k]` on a JS object modelled as an insertion-ordered
association list. -/
def objGet {β : Type} (k : String) : List (String × β) → Option β
  | [] => none
  | (k₁, v) :: rest => if k₁ = k then some v else objGet k rest

/-- Property write `m[k] = v` on a JS object: overwrite in place when the key
exists, otherwise append (insertion order). -/
def setKey {β : Type} (k : String) (v : β) : List (String × β) → List (String × β)
  | [] => [(k, v)]
  | (k₁, v₁) :: rest => if k₁ = k then (k, v) :: rest else (k₁, v₁) :: setKey k v rest

/-- Update the value at an existing key in place (`m[k].f += 1` patterns);
no-op when the key is absent. -/
def mapAt {β : Type} (k : String) (f : β → β) : List (String × β) → List (String × β)
  | [] => []
  | (k₁, v) :: rest => if k₁ = k then (k₁, f v) :: rest else (k₁, v) :: mapAt k f rest

/-- The per-month value of `monthlyData`: `{ students: number; lecturers: number }`. -/
structure RegCounts where
  students : Nat
  lecturers : Nat
deriving DecidableEq, Repr

/-- The bucket key of line 130:
`` `${date.getFullYear()}-${date.getMonth() + 1}` `` — an invalid date has
`getFullYear() = NaN` and `getMonth() = NaN`, producing the string
`"NaN-NaN"`. -/
def monthKey : Option JSDate → String
  | none => "NaN-NaN"
  | some d => toString d.year ++ "-" ++ toString (d.month.val + 1)

/-- Lines 131–133: `if (!monthlyData[monthKey]) { monthlyData[monthKey] =
{students: 0, lecturers: 0}; }` — a present bucket object is always truthy,
so the check is exactly "key absent". -/
def ensureKey (k : String) (m : List (String × RegCounts)) : List (String × RegCounts) :=
  match objGet k m with
  | none => m ++ [(k, ⟨0, 0⟩)]
  | some _ => m

/-- One iteration of the `forEach` of lines 128–139: ensure the month bucket
exists, then increment the `students` count for role `"student"`, the
`lecturers` count for role `"lecturer"`, and nothing for any other role. -/
def regStep (parse : String → Option JSDate)
    (m : List (String × RegCounts)) (user : User) : List (String × RegCounts) :=
  let key := monthKey (parse user.created_at)
  let m₁ := ensureKey key m
  if user.role = "student" then
    mapAt key (fun c => { c with students := c.students + 1 }) m₁
  else if user.role = "lecturer" then
    mapAt key (fun c => { c with lecturers := c.lecturers + 1 }) m₁
  else m₁

/-- The `monthlyData` object after the whole `forEach` of lines 128–139. -/
def regFold (parse : String → Option JSDate) (users : List User) :
    List (String × RegCounts) :=
  users.foldl (regStep parse) []

/-- One chart dataset: its legend label and its values (color fields are
presentational and omitted, see the module comment). -/
structure Dataset where
  label : String
  data : List Nat
deriving DecidableEq, Repr

/-- The `{labels, datasets}` structure handed to the chart renderer. -/
structure ChartData where
  labels : List String
  datasets : List Dataset
deriving DecidableEq, Repr

/-- Result of `getUserRegistrationData`. -/
structure UserReport where
  tableData : List User
  chartData : ChartData
deriving DecidableEq, Repr

/-- Result of `getAnnouncementActivityData`. -/
structure AnnReport where
  tableData : List Announcement
  chartData : ChartData
deriving DecidableEq, Repr

/-- Lexicographic comparison of character sequences by code point, the order
JavaScript's default `Array.prototype.sort` applies to strings (UTF-16 code
unit order; identical to code point order on the characters in play). -/
def charsLe : List Char → List Char → Bool
  | [], _ => true
  | _ :: _, [] => false
  | c₁ :: r₁, c₂ :: r₂ =>
    if c₁ = c₂ then charsLe r₁ r₂ else decide (c₁.toNat < c₂.toNat)

/-- JS default string comparison, on the underlying character lists. -/
def strLe (a b : String) : Bool := charsLe a.data b.data

/-- Insert into a `strLe`-sorted list, keeping it sorted. -/
def insertStr (x : String) : List String → List String
  | [] => [x]
  | y :: ys => if strLe x y then x :: y :: ys else y :: insertStr x ys

/-- `Array.prototype.sort()` on an array of strings (insertion sort under
`strLe`; JS sort is specified only up to the comparison order). -/
def sortStrings : List String → List String
  | [] => []
  | x :: xs => insertStr x (sortStrings xs)

/-- `getUserRegistrationData` (lines 122–165): filter, bucket into
`monthlyData`, sort the keys (`Object.keys(monthlyData).sort()`), and read
the per-label counts back positionally. -/
def getUserRegistrationData (parse : String → Option JSDate)
    (startDate endDate : Option JSDate) (users : List User) : UserReport :=
  let filteredUsers := filterUsersByDateRange parse startDate endDate users
  let monthlyData := regFold parse filteredUsers
  let labels := sortStrings (monthlyData.map Prod.fst)
  let studentData := labels.map fun label => ((objGet label monthlyData).map RegCounts.students).getD 0
  let lecturerData := labels.map fun label => ((objGet label monthlyData).map RegCounts.lecturers).getD 0
  { tableData := filteredUsers
    chartData :=
      { labels := labels
        datasets :=
          [ { label := "Students", data := studentData }
          , { label := "Lecturers", data := lecturerData } ] } }

/-- `announcement.sender_name || "Unknown"` (lines 173, 240, 328): the JS
`||` falls through to `"Unknown"` exactly when the field is absent or the
empty string (the only falsy strings). -/
def senderOf (ann : Announcement) : String :=
  match ann.sender_name with
  | none => "Unknown"
  | some s => if s = "" then "Unknown" else s

/-- One iteration of the `forEach` of lines 172–175:
`senderData[sender] = (senderData[sender] || 0) + 1`. -/
def actStep (m : List (String × Nat)) (ann : Announcement) : List (String × Nat) :=
  let sender := senderOf ann
  setKey sender (((objGet sender m).getD 0) + 1) m

/-- The `senderData` object after the whole `forEach` of lines 172–175. -/
def actFold (anns : List Announcement) : List (String × Nat) :=
  anns.foldl actStep []

/-- `getAnnouncementActivityData` (lines 168–198): filter, bucket by sender,
then `Object.keys` / `Object.values` in insertion order. -/
def getAnnouncementActivityData (parse : String → Option JSDate)
    (startDate endDate : Option JSDate) (anns : List Announcement) : AnnReport :=
  let filteredAnnouncements := filterAnnouncementsByDateRange parse startDate endDate anns
  let senderData := actFold filteredAnnouncements
  { tableData := filteredAnnouncements
    chartData :=
      { labels := senderData.map Prod.fst
        datasets := [ { label := "Announcements", data := senderData.map Prod.snd } ] } }

/-- Representative `toLocaleDateString()` rendering: `M/D/YYYY` for a valid
date, `"Invalid Date"` for an invalid one (browser behavior). -/
def toLocaleDateStr : Option JSDate → String
  | none => "Invalid Date"
  | some d => toString (d.month.val + 1) ++ "/" ++ toString d.day ++ "/" ++ toString d.year

/-- The report kind selected in the UI (`reportType` state). -/
inductive ReportType
  | users
  | announcements
deriving DecidableEq, Repr

/-- `startDate?.toLocaleDateString() || "N/A"` (lines 214–216). -/
def dateOrNA : Option JSDate → String
  | none => "N/A"
  | some d => toLocaleDateStr (some d)

/-- A body row of the user table (lines 225–231): `created_at` is formatted
through `toLocaleDateString` when the raw string is truthy (non-empty),
otherwise `"N/A"`. -/
def userRow (parse : String → Option JSDate) (user : User) : List String :=
  [ user.name
  , user.role
  , if user.created_at = "" then "N/A" else toLocaleDateStr (parse user.created_at) ]

/-- A body row of the announcement table (lines 238–244). -/
def annRow (parse : String → Option JSDate) (ann : Announcement) : List String :=
  [ ann.message
  , senderOf ann
  , if ann.sent_at = "" then "N/A" else toLocaleDateStr (parse ann.sent_at) ]

/-- The document `downloadPDF` builds and saves: fixed title, report-kind
line, date-range line, and the optional table section. -/
structure Document where
  title : String
  reportTypeLine : String
  dateRangeLine : String
  table : Option (List String × List (List String))
deriving DecidableEq, Repr

/-- `downloadPDF` (lines 201–250).  The function unconditionally creates a
`jsPDF` document, writes the three header lines, adds a table only for a set
report kind (the kind line's ternary falls through to
`"Announcement Activity"` when `reportType` is null), and unconditionally
saves the document as `report.pdf`. -/
def downloadPDF (parse : String → Option JSDate) (reportType : Option ReportType)
    (startDate endDate : Option JSDate)
    (users : List User) (anns : List Announcement) : Document :=
  let reportTypeLine := "Report Type: " ++
    (if reportType = some ReportType.users then "User Registration Trends"
     else "Announcement Activity")
  let dateRangeLine := "Date Range: " ++ dateOrNA startDate ++ " - " ++ dateOrNA endDate
  let table :=
    if reportType = some ReportType.users then
      some (["Name", "Role", "Registered At"],
        (getUserRegistrationData parse startDate endDate users).tableData.map (userRow parse))
    else if reportType = some ReportType.announcements then
      some (["Message", "Sender", "Sent At"],
        (getAnnouncementActivityData parse startDate endDate anns).tableData.map (annRow parse))
    else none
  { title := "Smart Campus Report"
    reportTypeLine := reportTypeLine
    dateRangeLine := dateRangeLine
    table := table }

/-- Line 359: the Download PDF button is rendered only when `reportType` is
truthy (`{reportType && (<button onClick={downloadPDF} ...>)}`), so the
export action is reachable from the UI only with a report kind selected. -/
def downloadButtonVisible (reportType : Option ReportType) : Bool :=
  reportType.isSome

/-- The keep-predicate exactly as the specification words it (§4.1): keep a
record iff (`start` unset OR `timestamp ≥ start`) AND (`end` unset OR
`timestamp ≤ end`), both bounds inclusive.  Written from the spec's words,
to be compared with the source filter. -/
def specKeep (parse : String → Option JSDate) (sd ed : Option JSDate) (user : User) : Bool :=
  (match sd with
   | none => true
   | some s => jsGE (parse user.created_at) s)
  && (match ed with
      | none => true
      | some e => jsLE (parse user.created_at) e)

/-- The spec's keep-predicate for announcement records (on `sent_at`). -/
def specKeepAnn (parse : String → Option JSDate) (sd ed : Option JSDate)
    (ann : Announcement) : Bool :=
  (match sd with
   | none => true
   | some s => jsGE (parse ann.sent_at) s)
  && (match ed with
      | none => true
      | some e => jsLE (parse ann.sent_at) e)

/-! ### Concrete fixtures for the spec's scenarios -/

/-- `new Date("2024-01-15")` (epoch values are representative; only their
order matters to the engine). -/
def dJan15 : JSDate := ⟨100, 2024, ⟨0, by decide⟩, 15⟩

/-- `new Date("2024-01-20")`. -/
def dJan20 : JSDate := ⟨101, 2024, ⟨0, by decide⟩, 20⟩

/-- `new Date("2024-02-01")`. -/
def dFeb01 : JSDate := ⟨102, 2024, ⟨1, by decide⟩, 1⟩

/-- A later date (after all scenario records), for inverted windows. -/
def dLate : JSDate := ⟨200, 2024, ⟨3, by decide⟩, 1⟩

/-- A concrete date-parse environment covering the scenario strings; every
other string is unparseable (an invalid date). -/
def parseA : String → Option JSDate := fun s =>
  if s = "2024-01-15" then some dJan15
  else if s = "2024-01-20" then some dJan20
  else if s = "2024-02-01" then some dFeb01
  else none

/-- Scenario A's three registration records. -/
def usersA : List User :=
  [ ⟨1, "U1", "student", "2024-01-15", ""⟩
  , ⟨2, "U2", "lecturer", "2024-01-20", ""⟩
  , ⟨3, "U3", "student", "2024-02-01", ""⟩ ]

/-- The earliest record of Scenario A, by itself. -/
def uEarly : User := ⟨1, "U1", "student", "2024-01-15", ""⟩

/-- A record whose timestamp string does not parse. -/
def uBad : User := ⟨9, "Eve", "student", "not-a-date", ""⟩

/-- Scenario C's activity records (actor names Alice, Bob, Alice). -/
def annsC : List Announcement :=
  [ ⟨1, "m1", 5, "2024-01-15", some "Alice"⟩
  , ⟨2, "m2", 6, "2024-01-16", some "Bob"⟩
  , ⟨3, "m3", 5, "2024-01-17", some "Alice"⟩ ]

/-- Scenario D's activity record with an absent actor name. -/
def annD : Announcement := ⟨7, "m4", 9, "2024-01-15", none⟩

/-! ## Association-list (JS object) lemmas -/

theorem objGet_eq_none_iff {β : Type} (k : String) :
    ∀ m : List (String × β), objGet k m = none ↔ k ∉ m.map Prod.fst := by
  intro m
  induction m with
  | nil => simp [objGet]
  | cons p rest ih =>
    obtain ⟨k₁, v⟩ := p
    by_cases h : k₁ = k
    · subst h; simp [objGet]
    · rw [List.map_cons, List.mem_cons]
      simp only [objGet, if_neg h]
      constructor
      · intro hg hor
        rcases hor with hor | hor
        · exact h hor.symm
        · exact (ih.1 hg) hor
      · intro hn
        exact ih.2 fun hm => hn (Or.inr hm)

theorem objGet_isSome_iff {β : Type} (k : String) (m : List (String × β)) :
    (objGet k m).isSome ↔ k ∈ m.map Prod.fst := by
  rw [Option.isSome_iff_ne_none, ne_eq, objGet_eq_none_iff, not_not]

theorem map_fst_mapAt {β : Type} (k : String) (f : β → β) :
    ∀ m : List (String × β), (mapAt k f m).map Prod.fst = m.map Prod.fst := by
  intro m
  induction m with
  | nil => rfl
  | cons p rest ih =>
    obtain ⟨k₁, v⟩ := p
    by_cases h : k₁ = k <;> simp [mapAt, h, ih]

theorem map_fst_setKey {β : Type} (k : String) (v : β) :
    ∀ m : List (String × β), (setKey k v m).map Prod.fst =
      if k ∈ m.map Prod.fst then m.map Prod.fst else m.map Prod.fst ++ [k] := by
  intro m
  induction m with
  | nil => simp [setKey]
  | cons p rest ih =>
    obtain ⟨k₁, v₁⟩ := p
    by_cases h : k₁ = k
    · subst h; simp [setKey]
    · have h' : ¬ k = k₁ := fun hh => h hh.symm
      by_cases hmem : k ∈ rest.map Prod.fst <;>
        simp [setKey, h, h', hmem, ih]

/-- Total weight of a JS object's values. -/
def objTotal {β : Type} (w : β → Nat) (m : List (String × β)) : Nat :=
  (m.map fun p => w p.2).sum

theorem objTotal_append {β : Type} (w : β → Nat) (m₁ m₂ : List (String × β)) :
    objTotal w (m₁ ++ m₂) = objTotal w m₁ + objTotal w m₂ := by
  simp [objTotal]

theorem objTotal_mapAt {β : Type} (w : β → Nat) (k : String) (f : β → β)
    (hf : ∀ c, w (f c) = w c + 1) :
    ∀ m : List (String × β), (objGet k m).isSome →
      objTotal w (mapAt k f m) = objTotal w m + 1 := by
  intro m
  induction m with
  | nil => intro hm; simp [objGet] at hm
  | cons p rest ih =>
    intro hm
    obtain ⟨k₁, v⟩ := p
    by_cases h : k₁ = k
    · simp only [mapAt, if_pos h, objTotal, List.map_cons, List.sum_cons, hf]
      omega
    · have hrest : (objGet k rest).isSome := by simpa [objGet, h] using hm
      have hr := ih hrest
      simp only [mapAt, if_neg h, objTotal, List.map_cons, List.sum_cons] at hr ⊢
      omega

theorem objTotal_setKey_getD (k : String) :
    ∀ m : List (String × Nat),
      objTotal (fun n => n) (setKey k (((objGet k m).getD 0) + 1) m)
        = objTotal (fun n => n) m + 1 := by
  intro m
  induction m with
  | nil => simp [setKey, objGet, objTotal]
  | cons p rest ih =>
    obtain ⟨k₁, v⟩ := p
    by_cases h : k₁ = k
    · subst h
      simp [objGet, setKey, objTotal]
      omega
    · simp only [objGet, if_neg h, setKey, objTotal, List.map_cons, List.sum_cons] at ih ⊢
      omega

/-! ## Registration bucketing lemmas -/

/-- A role that the per-category breakdown recognizes. -/
def recognizedRole (user : User) : Bool :=
  user.role == "student" || user.role == "lecturer"

/-- Total of all per-bucket, per-sub-key counts of `monthlyData`. -/
def regTotal (m : List (String × RegCounts)) : Nat :=
  objTotal (fun c => c.students + c.lecturers) m

/-- Total of all per-bucket counts of `senderData`. -/
def actTotal (m : List (String × Nat)) : Nat :=
  objTotal (fun n => n) m

theorem objGet_append_single_of_none {β : Type} (k : String) (v : β) :
    ∀ m : List (String × β), objGet k m = none → objGet k (m ++ [(k, v)]) = some v := by
  intro m
  induction m with
  | nil => intro _; simp [objGet]
  | cons p rest ih =>
    intro hg
    obtain ⟨k₁, v₁⟩ := p
    by_cases h : k₁ = k
    · simp [objGet, h] at hg
    · simp only [objGet, if_neg h] at hg ⊢
      exact ih hg

theorem objGet_ensureKey_isSome (k : String) (m : List (String × RegCounts)) :
    (objGet k (ensureKey k m)).isSome := by
  unfold ensureKey
  cases hg : objGet k m with
  | none => simp [objGet_append_single_of_none k _ m hg]
  | some v => simp [hg]

theorem regTotal_ensureKey (k : String) (m : List (String × RegCounts)) :
    regTotal (ensureKey k m) = regTotal m := by
  unfold ensureKey
  cases hg : objGet k m with
  | none => simp [regTotal, objTotal_append, objTotal]
  | some v => rfl

theorem map_fst_ensureKey (k : String) (m : List (String × RegCounts)) :
    (ensureKey k m).map Prod.fst =
      if k ∈ m.map Prod.fst then m.map Prod.fst else m.map Prod.fst ++ [k] := by
  unfold ensureKey
  cases hg : objGet k m with
  | none =>
    have : k ∉ m.map Prod.fst := (objGet_eq_none_iff k m).1 hg
    simp [this]
  | some v =>
    have : k ∈ m.map Prod.fst := (objGet_isSome_iff k m).1 (by simp [hg])
    simp [this]

theorem regTotal_regStep (parse : String → Option JSDate)
    (m : List (String × RegCounts)) (user : User) :
    regTotal (regStep parse m user) =
      regTotal m + (if recognizedRole user then 1 else 0) := by
  have h₁ := regTotal_ensureKey (monthKey (parse user.created_at)) m
  have h₂ := objGet_ensureKey_isSome (monthKey (parse user.created_at)) m
  by_cases hs : user.role = "student"
  · have hrec : recognizedRole user = true := by simp [recognizedRole, hs]
    have hmap := objTotal_mapAt (fun c => c.students + c.lecturers)
      (monthKey (parse user.created_at)) (fun c => { c with students := c.students + 1 })
      (fun c => by show c.students + 1 + c.lecturers = c.students + c.lecturers + 1; omega)
      _ h₂
    simp only [regStep, if_pos hs, hrec, if_true]
    unfold regTotal at h₁ ⊢
    omega
  · by_cases hl : user.role = "lecturer"
    · have hrec : recognizedRole user = true := by simp [recognizedRole, hl]
      have hmap := objTotal_mapAt (fun c => c.students + c.lecturers)
        (monthKey (parse user.created_at)) (fun c => { c with lecturers := c.lecturers + 1 })
        (fun c => by show c.students + (c.lecturers + 1) = c.students + c.lecturers + 1; omega)
        _ h₂
      simp only [regStep, if_neg hs, if_pos hl, hrec, if_true]
      unfold regTotal at h₁ ⊢
      omega
    · have hrec : recognizedRole user = false := by simp [recognizedRole, hs, hl]
      simp only [regStep, if_neg hs, if_neg hl, hrec, Bool.false_eq_true, if_false]
      omega

theorem regTotal_foldl (parse : String → Option JSDate) :
    ∀ (l : List User) (m : List (String × RegCounts)),
      regTotal (l.foldl (regStep parse) m) =
        regTotal m + (l.filter recognizedRole).length := by
  intro l
  induction l with
  | nil => intro m; simp
  | cons u l ih =>
    intro m
    rw [List.foldl_cons, ih, regTotal_regStep, List.filter_cons]
    cases h : recognizedRole u
    all_goals simp [h]
    all_goals omega

/-! ## Activity bucketing lemmas -/

theorem actTotal_actStep (m : List (String × Nat)) (ann : Announcement) :
    actTotal (actStep m ann) = actTotal m + 1 := by
  unfold actStep actTotal
  exact objTotal_setKey_getD (senderOf ann) m

theorem actTotal_foldl :
    ∀ (l : List Announcement) (m : List (String × Nat)),
      actTotal (l.foldl actStep m) = actTotal m + l.length := by
  intro l
  induction l with
  | nil => intro m; simp
  | cons a l ih =>
    intro m
    rw [List.foldl_cons, ih, actTotal_actStep, List.length_cons]
    omega

theorem map_fst_actStep (m : List (String × Nat)) (ann : Announcement) :
    (actStep m ann).map Prod.fst =
      if senderOf ann ∈ m.map Prod.fst then m.map Prod.fst
      else m.map Prod.fst ++ [senderOf ann] := by
  unfold actStep
  exact map_fst_setKey (senderOf ann) _ m

theorem map_fst_foldl_actStep :
    ∀ (l : List Announcement) (m : List (String × Nat)),
      (l.foldl actStep m).map Prod.fst =
        (l.map senderOf).foldl
          (fun acc s => if s ∈ acc then acc else acc ++ [s]) (m.map Prod.fst) := by
  intro l
  induction l with
  | nil => intro m; rfl
  | cons a l ih =>
    intro m
    rw [List.foldl_cons, ih, List.map_cons, List.foldl_cons, map_fst_actStep]

/-! ## Registration key set lemmas -/

theorem map_fst_regStep (parse : String → Option JSDate)
    (m : List (String × RegCounts)) (user : User) :
    (regStep parse m user).map Prod.fst =
      (ensureKey (monthKey (parse user.created_at)) m).map Prod.fst := by
  by_cases hs : user.role = "student"
  · simp only [regStep, if_pos hs, map_fst_mapAt]
  · by_cases hl : user.role = "lecturer"
    · simp only [regStep, if_neg hs, if_pos hl, map_fst_mapAt]
    · simp only [regStep, if_neg hs, if_neg hl]

theorem monthKey_mem_regStep (parse : String → Option JSDate)
    (m : List (String × RegCounts)) (user : User) :
    monthKey (parse user.created_at) ∈ (regStep parse m user).map Prod.fst := by
  rw [map_fst_regStep, map_fst_ensureKey]
  by_cases h : monthKey (parse user.created_at) ∈ m.map Prod.fst <;> simp [h]

theorem mem_keys_regStep_of_mem (parse : String → Option JSDate)
    (m : List (String × RegCounts)) (user : User) (x : String)
    (hx : x ∈ m.map Prod.fst) : x ∈ (regStep parse m user).map Prod.fst := by
  rw [map_fst_regStep, map_fst_ensureKey]
  by_cases h : monthKey (parse user.created_at) ∈ m.map Prod.fst <;> simp [h, hx]

theorem mem_keys_foldl_regStep (parse : String → Option JSDate) (x : String) :
    ∀ (l : List User) (m : List (String × RegCounts)),
      x ∈ m.map Prod.fst → x ∈ (l.foldl (regStep parse) m).map Prod.fst := by
  intro l
  induction l with
  | nil => intro m hx; exact hx
  | cons u l ih =>
    intro m hx
    rw [List.foldl_cons]
    exact ih _ (mem_keys_regStep_of_mem parse m u x hx)

theorem monthKey_mem_foldl_regStep (parse : String → Option JSDate) :
    ∀ (l : List User) (m : List (String × RegCounts)) (u : User), u ∈ l →
      monthKey (parse u.created_at) ∈ (l.foldl (regStep parse) m).map Prod.fst := by
  intro l
  induction l with
  | nil => intro m u hu; cases hu
  | cons v l ih =>
    intro m u hu
    rw [List.foldl_cons]
    rcases List.mem_cons.1 hu with rfl | hu
    · exact mem_keys_foldl_regStep parse _ l _ (monthKey_mem_regStep parse m u)
    · exact ih _ u hu

/-! ## String sort lemmas -/

theorem char_eq_of_toNat_eq {a b : Char} (h : a.toNat = b.toNat) : a = b :=
  Char.eq_of_val_eq (UInt32.ext h)

theorem charsLe_total : ∀ l₁ l₂ : List Char, charsLe l₁ l₂ = true ∨ charsLe l₂ l₁ = true := by
  intro l₁
  induction l₁ with
  | nil => intro l₂; left; rfl
  | cons c₁ r₁ ih =>
    intro l₂
    cases l₂ with
    | nil => right; rfl
    | cons c₂ r₂ =>
      by_cases h : c₁ = c₂
      · subst h
        rcases ih r₂ with h₁ | h₁
        · left; simpa [charsLe] using h₁
        · right; simpa [charsLe] using h₁
      · have hne : c₁.toNat ≠ c₂.toNat := fun hEq => h (char_eq_of_toNat_eq hEq)
        rcases Nat.lt_or_ge c₁.toNat c₂.toNat with hlt | hge
        · left; simp [charsLe, h, hlt]
        · have hlt : c₂.toNat < c₁.toNat := lt_of_le_of_ne hge (Ne.symm hne)
          have h₂ : ¬ c₂ = c₁ := fun hh => h hh.symm
          right; simp [charsLe, h₂, hlt]

theorem charsLe_trans :
    ∀ l₁ l₂ l₃ : List Char,
      charsLe l₁ l₂ = true → charsLe l₂ l₃ = true → charsLe l₁ l₃ = true := by
  intro l₁
  induction l₁ with
  | nil => intro l₂ l₃ _ _; rfl
  | cons c₁ r₁ ih =>
    intro l₂ l₃ h₁₂ h₂₃
    cases l₂ with
    | nil => simp [charsLe] at h₁₂
    | cons c₂ r₂ =>
      cases l₃ with
      | nil => simp [charsLe] at h₂₃
      | cons c₃ r₃ =>
        by_cases e₁ : c₁ = c₂
        · subst e₁
          by_cases e₂ : c₁ = c₃
          · subst e₂
            simp only [charsLe, if_pos rfl] at h₁₂ h₂₃ ⊢
            exact ih r₂ r₃ h₁₂ h₂₃
          · simp only [charsLe, if_neg e₂] at h₂₃ ⊢
            exact h₂₃
        · by_cases e₂ : c₂ = c₃
          · subst e₂
            simp only [charsLe, if_neg e₁] at h₁₂ ⊢
            exact h₁₂
          · simp only [charsLe, if_neg e₁, if_neg e₂, decide_eq_true_eq] at h₁₂ h₂₃
            have hlt := Nat.lt_trans h₁₂ h₂₃
            have hne : ¬ c₁ = c₃ := fun hEq => by
              rw [hEq] at h₁₂
              exact Nat.lt_irrefl _ (Nat.lt_trans h₁₂ h₂₃)
            simp [charsLe, hne, hlt]

theorem strLe_total (a b : String) : strLe a b = true ∨ strLe b a = true :=
  charsLe_total a.data b.data

theorem strLe_trans {a b c : String} (h₁ : strLe a b = true) (h₂ : strLe b c = true) :
    strLe a c = true :=
  charsLe_trans a.data b.data c.data h₁ h₂

theorem insertStr_perm (x : String) : ∀ l : List String, (insertStr x l).Perm (x :: l) := by
  intro l
  induction l with
  | nil => exact List.Perm.refl _
  | cons y ys ih =>
    by_cases h : strLe x y
    · simp [insertStr, h]
    · simp only [insertStr, if_neg h]
      exact (ih.cons y).trans (List.Perm.swap x y ys)

theorem sortStrings_perm : ∀ l : List String, (sortStrings l).Perm l := by
  intro l
  induction l with
  | nil => exact List.Perm.refl _
  | cons x xs ih =>
    exact (insertStr_perm x (sortStrings xs)).trans (ih.cons x)

theorem sorted_insertStr (x : String) :
    ∀ l : List String, List.Sorted (fun a b => strLe a b = true) l →
      List.Sorted (fun a b => strLe a b = true) (insertStr x l) := by
  intro l hl
  induction l with
  | nil => simp [insertStr]
  | cons y ys ih =>
    rcases List.sorted_cons.1 hl with ⟨hy, hys⟩
    by_cases h : strLe x y
    · simp only [insertStr, if_pos h]
      refine List.sorted_cons.2 ⟨?_, hl⟩
      intro b hb
      rcases List.mem_cons.1 hb with rfl | hb
      · exact h
      · exact strLe_trans h (hy b hb)
    · have h' : strLe y x = true := by
        rcases strLe_total x y with h₁ | h₁
        · exact absurd h₁ h
        · exact h₁
      simp only [insertStr, if_neg h]
      refine List.sorted_cons.2 ⟨?_, ih hys⟩
      intro b hb
      rcases List.mem_cons.1 ((insertStr_perm x ys).mem_iff.1 hb) with rfl | hb
      · exact h'
      · exact hy b hb

theorem sortStrings_sorted :
    ∀ l : List String, List.Sorted (fun a b => strLe a b = true) (sortStrings l) := by
  intro l
  induction l with
  | nil => simp [sortStrings]
  | cons x xs ih => exact sorted_insertStr x (sortStrings xs) ih

/-! ## Filter lemmas -/

theorem filter_idem {α : Type} (p : α → Bool) :
    ∀ l : List α, (l.filter p).filter p = l.filter p := by
  intro l
  induction l with
  | nil => rfl
  | cons a l ih =>
    by_cases h : p a <;> simp [List.filter_cons, h, ih]

/-! ## Claims -/

/-- C1 counterexample: with only the start bound set (start = 2024-02-01,
end unset), the source filter keeps a record dated 2024-01-15 — it returns
the data unchanged whenever either bound is unset — although the spec's
keep-predicate rejects that record.  So a window with exactly one bound set
does NOT filter by that bound. -/
theorem C1_counterexample :
    filterUsersByDateRange parseA (some dFeb01) none [uEarly] = [uEarly]
    ∧ specKeep parseA (some dFeb01) none uEarly = false := by
  exact ⟨rfl, by decide⟩

/-- C1 (amended): the range filter is a no-op whenever either bound of the
window is unset (every record passes, even against a set bound); only when
both bounds are set does it keep a record iff its timestamp is within the
inclusive window, which on two-bound windows agrees with the spec's
keep-predicate. -/
theorem C1_theorem (parse : String → Option JSDate) (sd ed : Option JSDate)
    (users : List User) (anns : List Announcement) :
    ((sd = none ∨ ed = none) →
        filterUsersByDateRange parse sd ed users = users
        ∧ filterAnnouncementsByDateRange parse sd ed anns = anns)
    ∧ (∀ s e : JSDate,
        filterUsersByDateRange parse (some s) (some e) users
          = users.filter (specKeep parse (some s) (some e))
        ∧ filterAnnouncementsByDateRange parse (some s) (some e) anns
          = anns.filter (specKeepAnn parse (some s) (some e))) := by
  constructor
  · rintro (rfl | rfl)
    · cases ed <;> exact ⟨rfl, rfl⟩
    · cases sd <;> exact ⟨rfl, rfl⟩
  · intro s e
    exact ⟨rfl, rfl⟩

/-- C1 witness: the amended theorem applied to a concrete one-bound window. -/
theorem C1_witness :
    filterUsersByDateRange parseA none (some dFeb01) usersA = usersA
    ∧ filterAnnouncementsByDateRange parseA none (some dFeb01) annsC = annsC :=
  (C1_theorem parseA none (some dFeb01) usersA annsC).1 (Or.inl rfl)

/-- C2 counterexample: calling the export function with the report kind
unset still produces (and saves) a document — with the kind line falling
through to "Announcement Activity" and no table — rather than producing no
document at all. -/
theorem C2_counterexample :
    downloadPDF parseA none none none usersA annsC =
      { title := "Smart Campus Report"
        reportTypeLine := "Report Type: Announcement Activity"
        dateRangeLine := "Date Range: N/A - N/A"
        table := none } := by
  decide

/-- C2 (amended): with the report kind unset the export function, if
invoked, still produces a document (fixed title, a kind line that falls
through to the announcement description, the date-range line) but with no
table section; the UI renders the export (download) button only when a
report kind is selected, so the unset-kind export is unreachable from the
UI. -/
theorem C2_theorem (parse : String → Option JSDate) (sd ed : Option JSDate)
    (users : List User) (anns : List Announcement) :
    (downloadPDF parse none sd ed users anns).table = none
    ∧ (downloadPDF parse none sd ed users anns).title = "Smart Campus Report"
    ∧ (downloadPDF parse none sd ed users anns).reportTypeLine
        = "Report Type: Announcement Activity"
    ∧ (∀ rt : Option ReportType, downloadButtonVisible rt = rt.isSome)
    ∧ downloadButtonVisible none = false :=
  ⟨rfl, rfl, rfl, fun _ => rfl, rfl⟩

/-- C3 counterexample: a record with an unparseable timestamp, passing an
unset window, IS aggregated into a time bucket — the `"NaN-NaN"` bucket —
contradicting the claim that it contributes to no bucket. -/
theorem C3_counterexample :
    (getUserRegistrationData parseA none none [uBad]).chartData =
      { labels := ["NaN-NaN"]
        datasets := [⟨"Students", [1]⟩, ⟨"Lecturers", [0]⟩] } := by
  decide

/-- C3 (amended): a record whose timestamp does not parse, when it reaches
the bucketing step (window unset), is bucketed under the single key
`"NaN-NaN"` (its role still counted there) rather than excluded from
aggregation; it still appears in the raw table rows, with the placeholder
`"Invalid Date"` in the date column when its raw string is non-empty and
`"N/A"` when it is empty. -/
theorem C3_theorem (parse : String → Option JSDate) (users : List User) (u : User)
    (hu : parse u.created_at = none) (hmem : u ∈ users) :
    u ∈ (getUserRegistrationData parse none none users).tableData
    ∧ "NaN-NaN" ∈ (getUserRegistrationData parse none none users).chartData.labels
    ∧ userRow parse u
        = [u.name, u.role, if u.created_at = "" then "N/A" else "Invalid Date"] := by
  refine ⟨hmem, ?_, ?_⟩
  · refine (sortStrings_perm _).mem_iff.2 ?_
    have h := monthKey_mem_foldl_regStep parse users [] u hmem
    rw [hu] at h
    exact h
  · by_cases hc : u.created_at = "" <;> simp [userRow, hc, hu, toLocaleDateStr]

/-- C3 witness: the amended theorem applied to the concrete malformed
record. -/
theorem C3_witness :
    uBad ∈ (getUserRegistrationData parseA none none [uBad]).tableData
    ∧ "NaN-NaN" ∈ (getUserRegistrationData parseA none none [uBad]).chartData.labels := by
  have h := C3_theorem parseA [uBad] uBad (by decide) (by decide)
  exact ⟨h.1, h.2.1⟩

/-- C4: the time-bucket key of a parsed timestamp is `"{year}-{month}"` with
month 1–12 and no leading zero (plain decimal rendering); the chart labels
are exactly the bucket keys of `monthlyData`, sorted ascending in JS string
order; and Scenario A's three records with the window unset yield labels
`["2024-1","2024-2"]`, students dataset `[1,1]`, lecturers dataset `[1,0]`. -/
theorem C4_theorem :
    (∀ d : JSDate,
        monthKey (some d) = toString d.year ++ "-" ++ toString (d.month.val + 1)
        ∧ 1 ≤ d.month.val + 1 ∧ d.month.val + 1 ≤ 12)
    ∧ (∀ (parse : String → Option JSDate) (sd ed : Option JSDate) (users : List User),
        List.Sorted (fun a b => strLe a b = true)
          (getUserRegistrationData parse sd ed users).chartData.labels
        ∧ ((getUserRegistrationData parse sd ed users).chartData.labels).Perm
            ((regFold parse (filterUsersByDateRange parse sd ed users)).map Prod.fst))
    ∧ (getUserRegistrationData parseA none none usersA).chartData
        = { labels := ["2024-1", "2024-2"]
            datasets := [⟨"Students", [1, 1]⟩, ⟨"Lecturers", [1, 0]⟩] } := by
  refine ⟨?_, ?_, by decide⟩
  · intro d
    refine ⟨rfl, ?_, ?_⟩
    · omega
    · have := d.month.isLt
      omega
  · intro parse sd ed users
    exact ⟨sortStrings_sorted _, sortStrings_perm _⟩

/-- C5: the total of all per-bucket, per-sub-key counts equals the number of
filtered records with a recognized role for the registration report, and the
full filtered count for the activity report (every sender name, including
the "Unknown" default, is counted); no record is double-counted. -/
theorem C5_theorem (parse : String → Option JSDate) (sd ed : Option JSDate)
    (users : List User) (anns : List Announcement) :
    regTotal (regFold parse (filterUsersByDateRange parse sd ed users))
      = ((filterUsersByDateRange parse sd ed users).filter recognizedRole).length
    ∧ actTotal (actFold (filterAnnouncementsByDateRange parse sd ed anns))
      = (filterAnnouncementsByDateRange parse sd ed anns).length := by
  constructor
  · have h := regTotal_foldl parse (filterUsersByDateRange parse sd ed users) []
    rw [show regTotal [] = 0 from rfl] at h
    simpa [regFold] using h
  · have h := actTotal_foldl (filterAnnouncementsByDateRange parse sd ed anns) []
    rw [show actTotal [] = 0 from rfl] at h
    simpa [actFold] using h

/-- C6: the activity bucket key is the sender name with "Unknown"
substituted when absent or empty, and the chart labels are the distinct
sender keys in first-seen (insertion) order; Scenario C (Alice, Bob, Alice)
yields the mapping Alice ↦ 2, Bob ↦ 1, labels ["Alice","Bob"], dataset
[2,1]; Scenario D's record with an absent name is bucketed under
"Unknown". -/
theorem C6_theorem :
    (∀ (parse : String → Option JSDate) (sd ed : Option JSDate)
        (anns : List Announcement),
      (getAnnouncementActivityData parse sd ed anns).chartData.labels
        = ((filterAnnouncementsByDateRange parse sd ed anns).map senderOf).foldl
            (fun acc s => if s ∈ acc then acc else acc ++ [s]) [])
    ∧ (getAnnouncementActivityData parseA none none annsC).chartData
        = { labels := ["Alice", "Bob"], datasets := [⟨"Announcements", [2, 1]⟩] }
    ∧ actFold annsC = [("Alice", 2), ("Bob", 1)]
    ∧ senderOf annD = "Unknown"
    ∧ (getAnnouncementActivityData parseA none none [annD]).chartData.labels
        = ["Unknown"] := by
  refine ⟨?_, by decide, by decide, rfl, by decide⟩
  intro parse sd ed anns
  have h := map_fst_foldl_actStep (filterAnnouncementsByDateRange parse sd ed anns) []
  simpa [actFold] using h

/-- C7: when both bounds are present and the start is after the end, the
range filter returns the empty sequence (the conjunction of the two
inclusive comparisons is unsatisfiable, and invalid dates fail both). -/
theorem C7_theorem (parse : String → Option JSDate) (s e : JSDate)
    (h : e.epoch < s.epoch) (users : List User) (anns : List Announcement) :
    filterUsersByDateRange parse (some s) (some e) users = []
    ∧ filterAnnouncementsByDateRange parse (some s) (some e) anns = [] := by
  constructor
  · refine List.filter_eq_nil_iff.2 ?_
    intro u _
    cases hp : parse u.created_at with
    | none => simp [jsGE, hp]
    | some d =>
      simp only [jsGE, jsLE, hp, Bool.and_eq_true, decide_eq_true_eq, not_and]
      intro h₁ h₂
      omega
  · refine List.filter_eq_nil_iff.2 ?_
    intro a _
    cases hp : parse a.sent_at with
    | none => simp [jsGE, hp]
    | some d =>
      simp only [jsGE, jsLE, hp, Bool.and_eq_true, decide_eq_true_eq, not_and]
      intro h₁ h₂
      omega

/-- C7 witness: the theorem applied to a concrete inverted window. -/
theorem C7_witness :
    filterUsersByDateRange parseA (some dLate) (some dFeb01) usersA = []
    ∧ filterAnnouncementsByDateRange parseA (some dLate) (some dFeb01) annsC = [] :=
  C7_theorem parseA dLate dFeb01 (by decide) usersA annsC

/-- C8: the range filter is idempotent — filtering its own output with the
same window returns that output unchanged, for every window shape. -/
theorem C8_theorem (parse : String → Option JSDate) (sd ed : Option JSDate)
    (users : List User) (anns : List Announcement) :
    filterUsersByDateRange parse sd ed (filterUsersByDateRange parse sd ed users)
      = filterUsersByDateRange parse sd ed users
    ∧ filterAnnouncementsByDateRange parse sd ed
        (filterAnnouncementsByDateRange parse sd ed anns)
      = filterAnnouncementsByDateRange parse sd ed anns := by
  cases sd with
  | none => cases ed <;> exact ⟨rfl, rfl⟩
  | some s =>
    cases ed with
    | none => exact ⟨rfl, rfl⟩
    | some e => exact ⟨filter_idem _ users, filter_idem _ anns⟩

/-- C9: with both bounds present, a record whose timestamp string does not
parse is always excluded (both NaN comparisons are false), while with either
bound absent the filter passes every record unchanged. -/
theorem C9_theorem (parse : String → Option JSDate) (sd ed : Option JSDate)
    (s e : JSDate) (users : List User) (u : User)
    (hu : parse u.created_at = none) :
    u ∉ filterUsersByDateRange parse (some s) (some e) users
    ∧ ((sd = none ∨ ed = none) → filterUsersByDateRange parse sd ed users = users) := by
  constructor
  · intro hmem
    have h := (List.mem_filter.1 hmem).2
    rw [hu] at h
    simp [jsGE] at h
  · rintro (rfl | rfl)
    · cases ed <;> rfl
    · cases sd <;> rfl

/-- C9 witness: the theorem applied to the concrete malformed record. -/
theorem C9_witness :
    uBad ∉ filterUsersByDateRange parseA (some dJan15) (some dFeb01) [uBad]
    ∧ filterUsersByDateRange parseA none (some dFeb01) [uBad] = [uBad] := by
  have h := C9_theorem parseA none (some dFeb01) dJan15 dFeb01 [uBad] uBad (by decide)
  exact ⟨h.1, h.2 (Or.inl rfl)⟩

/-- C10: the registration chart always has exactly the two datasets
"Students" then "Lecturers" and the activity chart exactly the one dataset
"Announcements", in fixed order — including on an empty record set, where
labels and all value lists are empty. -/
theorem C10_theorem (parse : String → Option JSDate) (sd ed : Option JSDate)
    (users : List User) (anns : List Announcement) :
    ((getUserRegistrationData parse sd ed users).chartData.datasets.map Dataset.label
        = ["Students", "Lecturers"])
    ∧ ((getAnnouncementActivityData parse sd ed anns).chartData.datasets.map Dataset.label
        = ["Announcements"])
    ∧ (getUserRegistrationData parse sd ed []).chartData
        = { labels := [], datasets := [⟨"Students", []⟩, ⟨"Lecturers", []⟩] }
    ∧ (getAnnouncementActivityData parse sd ed []).chartData
        = { labels := [], datasets := [⟨"Announcements", []⟩] } := by
  refine ⟨rfl, rfl, ?_, ?_⟩
  · cases sd <;> cases ed <;> rfl
  · cases sd <;> cases ed <;> rfl
